import Mathlib

/-!
Verification of the claude-code-leaderboard collection-and-sync agent.

The JavaScript sources are shallowly embedded: JSON values parsed from
source-log lines become an inductive `Json` type, filesystem and network
effects become explicit inputs/outputs, and every embedded function mirrors
the control flow of the corresponding JavaScript function.  A log line that
is not well-formed JSON is represented as `none : Option Json`.
-/

namespace ClaudeStats

/-- A JavaScript/JSON value as produced by `JSON.parse`.  Numbers are
modelled as integers (the token counts handled by this program are
integral); `null`, booleans, strings, arrays and objects are as in JSON. -/
inductive Json where
  | null
  | bool (b : Bool)
  | num (n : Int)
  | str (s : String)
  | arr (items : List Json)
  | obj (fields : List (String × Json))

/-- JavaScript truthiness of a value: `null`, `false`, `0` and the empty
string are falsy; arrays and objects are always truthy. -/
def jsTruthy : Json → Bool
  | .null => false
  | .bool b => b
  | .num n => n != 0
  | .str s => s != ""
  | .arr _ => true
  | .obj _ => true

/-- Property access `v?.key` / `v.key`: an object lookup; access on a
missing value or on a non-object yields `undefined`, modelled as `none`. -/
def jsGet : Option Json → String → Option Json
  | some (.obj fields), key => (fields.find? (fun f => f.1 == key)).map (fun f => f.2)
  | _, _ => none

/-- Truthiness of a possibly-`undefined` value (`undefined` is falsy). -/
def jsTruthyOpt : Option Json → Bool
  | some v => jsTruthy v
  | none => false

/-- The JavaScript `x || dflt` idiom: the value itself when truthy,
otherwise the default. -/
def jsOr (v : Option Json) (dflt : Json) : Json :=
  match v with
  | some x => if jsTruthy x then x else dflt
  | none => dflt

mutual
/-- Template-literal stringification of a value, as in `` `${v}` ``. -/
def jsToStr : Json → String
  | .null => "null"
  | .bool b => if b then "true" else "false"
  | .num n => toString n
  | .str s => s
  | .arr items => String.intercalate "," (jsToStrList items)
  | .obj _ => "[object Object]"

/-- Stringification of the elements of an array (arrays stringify as
their comma-joined elements). -/
def jsToStrList : List Json → List String
  | [] => []
  | j :: rest => jsToStr j :: jsToStrList rest
end

/-- Stringification of `v || ''` as used when building the hash input:
empty string for falsy or missing values. -/
def jsToStrOrEmpty (v : Option Json) : String :=
  match v with
  | some j => if jsTruthy j then jsToStr j else ""
  | none => ""

/-- Whether a (possibly missing) value is a JavaScript number, as tested by
`typeof x === 'number'`. -/
def isNum : Option Json → Bool
  | some (.num _) => true
  | _ => false

/-- The `tokens` object of a usage record, as built by
`parseUsageFromLine` in `hooks/collect-utils.js`.  The `cache_creation`
and `cache_read` fields hold the raw result of the `x || 0` defaulting,
so they are kept as `Json` values. -/
structure Tokens where
  input : Json
  output : Json
  cache_creation : Json
  cache_read : Json

/-- A usage record as returned by `parseUsageFromLine`. -/
structure UsageRecord where
  timestamp : Json
  tokens : Tokens
  model : Json
  session_id : Json
  interaction_hash : String

/-- Embedding of `parseUsageFromLine(line)` (identical in
`hooks/count_tokens.js` and `hooks/collect-utils.js`).  The input is the
result of `JSON.parse(line.trim())`, with `none` standing for a line that
is not well-formed JSON (`JSON.parse` throws, the `catch` returns `null`).
The SHA-256 digest is abstracted as a caller-supplied `hash` function over
the concatenated hash input `timestamp + (message.id || '') +
(requestId || '')`. -/
def parseUsageFromLine (hash : String → String) (line : Option Json) : Option UsageRecord :=
  match line with
  | none => none
  | some data =>
    let timestamp := jsGet (some data) "timestamp"
    let message := jsGet (some data) "message"
    let usage := jsGet message "usage"
    if jsTruthyOpt timestamp && jsTruthyOpt usage then
      match jsGet usage "input_tokens", jsGet usage "output_tokens" with
      | some (Json.num inputTok), some (Json.num outputTok) =>
        let hashInput := jsToStr (timestamp.getD Json.null)
            ++ jsToStrOrEmpty (jsGet message "id")
            ++ jsToStrOrEmpty (jsGet (some data) "requestId")
        some { timestamp := timestamp.getD Json.null
               tokens := { input := Json.num inputTok
                           output := Json.num outputTok
                           cache_creation := jsOr (jsGet usage "cache_creation_input_tokens") (Json.num 0)
                           cache_read := jsOr (jsGet usage "cache_read_input_tokens") (Json.num 0) }
               model := jsOr (jsGet message "model") (Json.str "unknown")
               session_id := jsOr (jsGet (some data) "sessionId") Json.null
               interaction_hash := hash hashInput }
      | _, _ => none
    else none

/-- The durable ledger of shipped records (`stats-state.json`): a schema
version, the timestamp of the last retention pass, and a mapping from
calendar day (`YYYY-MM-DD`) to the interaction hashes recorded under that
day.  The mapping is kept as an association list, matching the JSON
object. -/
structure ProcessedState where
  version : String
  lastCleanup : String
  recentHashes : List (String × List String)

/-- Lookup `state.recentHashes[day]`. -/
def lookupDay (state : ProcessedState) (day : String) : Option (List String) :=
  (state.recentHashes.find? (fun e => e.1 == day)).map (fun e => e.2)

/-- Whether a hash is present anywhere in `recentHashes`, under any
day-key. -/
def hashAnywhere (state : ProcessedState) (h : String) : Bool :=
  state.recentHashes.any (fun e => e.2.contains h)

/-- The characters before the first `'T'`, i.e.
`s.split('T')[0]`. -/
def takeUntilT : List Char → List Char
  | [] => []
  | c :: rest => if c == 'T' then [] else c :: takeUntilT rest

/-- The day-key computation `entry.timestamp.split('T')[0]`.  In
JavaScript `.split` exists only on strings; on any other value the access
throws a `TypeError`, modelled as `none` (the exception is caught by
`parseJsonlFile`, which then returns the entries collected so far). -/
def dayKeyOf : Json → Option String
  | .str s => some (String.mk (takeUntilT s.toList))
  | _ => none

/-- Embedding of `parseJsonlFile(filePath, state, logger)` from
`hooks/collect-utils.js`, applied to the parsed lines of the file (each
line is `none` when not well-formed JSON).  Each parsed entry is kept
unless its `interaction_hash` appears in `state.recentHashes` under the
day-key derived from the entry's own timestamp.  A thrown `TypeError`
(non-string timestamp) aborts the loop; the `catch` returns the entries
accumulated so far. -/
def parseJsonlFile (hash : String → String) (state : ProcessedState) :
    List (Option Json) → List UsageRecord
  | [] => []
  | line :: rest =>
    match parseUsageFromLine hash line with
    | none => parseJsonlFile hash state rest
    | some entry =>
      match dayKeyOf entry.timestamp with
      | none => []
      | some dayKey =>
        if ((lookupDay state dayKey).getD []).contains entry.interaction_hash then
          parseJsonlFile hash state rest
        else
          entry :: parseJsonlFile hash state rest

/-- A source log file, as seen by the scanner: its byte size and its
parsed lines. -/
structure SourceFile where
  size : Nat
  lines : List (Option Json)

/-- The 20 MB size ceiling named by the specification.  No constant of
this kind appears in `hooks/collect-utils.js`; it is declared here only to
state the size-skip claim against the code. -/
def MAX_FILE_SIZE : Nat := 20 * 1024 * 1024

/-- Embedding of the per-file step of `collectNewUsageData` from
`hooks/collect-utils.js`: `parseJsonlFile` is called on every discovered
file unconditionally — the function never consults the file's size
(`stat` is imported by the module but never used). -/
def parseJsonlFileSized (hash : String → String) (state : ProcessedState)
    (f : SourceFile) : List UsageRecord :=
  parseJsonlFile hash state f.lines

/-- Embedding of `collectNewUsageData(state, logger)` from
`hooks/collect-utils.js`, applied to the list of discovered `.jsonl`
files: the per-file results are appended in order.  Every file is
processed; there is no size filter. -/
def collectNewUsageData (hash : String → String) (state : ProcessedState)
    (files : List SourceFile) : List UsageRecord :=
  (files.map (parseJsonlFileSized hash state)).flatten

/-- `BATCH_SIZE = 50` from `scripts/process-large-buffer.js`. -/
def BATCH_SIZE : Nat := 50

/-- Fuel-indexed splitting into consecutive batches of `BATCH_SIZE`; the
fuel only serves structural termination and `chunksOf` supplies enough of
it. -/
def chunksOfAux : Nat → List α → List (List α)
  | 0, _ => []
  | _, [] => []
  | fuel + 1, a :: rest =>
    ((a :: rest).take BATCH_SIZE) :: chunksOfAux fuel ((a :: rest).drop BATCH_SIZE)

/-- Splitting the pending entries into consecutive batches of
`BATCH_SIZE`, as done by the `for (let i = 0; i < entries.length;
i += BATCH_SIZE)` loop of `processLargeBuffer`. -/
def chunksOf (l : List α) : List (List α) :=
  chunksOfAux l.length l

/-- The `successCount` accumulated by `processLargeBuffer`: for every
batch whose `sendBatch` result is successful, the server's inserted count
is added.  The transport outcome of batch `i` is given by `ok i`; a
successful batch contributes its full length (the `result.inserted ||
batch.length` expression with the server reporting the whole batch
inserted). -/
def drainSuccessCount (ok : Nat → Bool) : Nat → List (List α) → Nat
  | _, [] => 0
  | i, b :: rest => (if ok i then b.length else 0) + drainSuccessCount ok (i + 1) rest

/-- The buffer contents written back by `processLargeBuffer` after the
drain: cleared when every record was counted sent, otherwise
`entries.slice(successCount)` — the tail of the original list starting at
index `successCount`. -/
def processLargeBufferRemaining (ok : Nat → Bool) (entries : List α) : List α :=
  let s := drainSuccessCount ok 0 (chunksOf entries)
  if s = entries.length then [] else entries.drop s

/-- The records that actually belong to failed batches, in their original
positions — what the claim says must be re-persisted. -/
def failedBatchRecords (ok : Nat → Bool) : Nat → List (List α) → List α
  | _, [] => []
  | i, b :: rest => (if ok i then [] else b) ++ failedBatchRecords ok (i + 1) rest

/-- The records belonging to succeeded batches — what the claim says is
counted shipped. -/
def succeededBatchRecords (ok : Nat → Bool) : Nat → List (List α) → List α
  | _, [] => []
  | i, b :: rest => (if ok i then b else []) ++ succeededBatchRecords ok (i + 1) rest

/-- What an acquire attempt observes about the sentinel file: absent, or
present with the given age in milliseconds (now minus its mtime). -/
inductive SentinelObs where
  | absent
  | present (age : Nat)

/-- Outcome of one iteration of the acquisition loop. -/
inductive LockStep where
  | acquired
  | timedOut
  | sleepRetry (ms : Nat)
  | deleteRetry

/-- Modelled from the spec: the staleness threshold (10 s) of the v2 hook
`FileLock`; the lock implementation with staleness handling lives in
`hooks/count_tokens_v2.js`, which is not among the sources (only its
simplified test stand-in is). -/
def LOCK_STALE_MS : Nat := 10000

/-- Modelled from the spec: the acquisition timeout (5 s) of the v2 hook
`FileLock.acquire`. -/
def LOCK_TIMEOUT_MS : Nat := 5000

/-- Modelled from the spec: the retry sleep (100 ms) of the v2 hook
`FileLock.acquire`. -/
def LOCK_SLEEP_MS : Nat := 100

/-- Modelled from the spec: one iteration of the v2 `FileLock.acquire`
loop at elapsed time `t` — give up once the timeout has elapsed; acquire
when the sentinel is absent (exclusive create succeeds); when it exists,
delete and retry immediately if its age exceeds the staleness threshold,
otherwise sleep 100 ms and retry. -/
def acquireStep (timeout t : Nat) (o : SentinelObs) : LockStep :=
  if timeout ≤ t then .timedOut
  else match o with
    | .absent => .acquired
    | .present age => if LOCK_STALE_MS < age then .deleteRetry else .sleepRetry LOCK_SLEEP_MS

/-- Modelled from the spec: the v2 `FileLock.acquire` loop.  `env i` is
what attempt `i` observes (the sentinel may be changed by other processes
or by our own stale-delete between attempts); `t` is the elapsed time.
Returns `some true` on acquisition, `some false` on timeout (failure, not
an error); `none` only when the fuel runs out. -/
def acquireRun (env : Nat → SentinelObs) (timeout : Nat) : Nat → Nat → Nat → Option Bool
  | _, _, 0 => none
  | t, i, fuel + 1 =>
    match acquireStep timeout t (env i) with
    | .acquired => some true
    | .timedOut => some false
    | .sleepRetry ms => acquireRun env timeout (t + ms) (i + 1) fuel
    | .deleteRetry => acquireRun env timeout t (i + 1) fuel

/-- Identifier of one of two concurrent agent invocations. -/
inductive Pid where
  | a
  | b
deriving DecidableEq

/-- Embedding of the sentinel semantics of `FileLock` from
`test/test-v2-hook.js`: attempts to create the lock file exclusively
(`open(file, 'wx')`) are atomic; an attempt succeeds exactly when no
holder exists, and a successful attempt installs its process as holder.
`runAttempts holder schedule` plays a global interleaving of attempts
(no release occurs during the window) and returns the final holder and
each attempt's result. -/
def runAttempts : Option Pid → List Pid → Option Pid × List (Pid × Bool)
  | holder, [] => (holder, [])
  | none, p :: rest =>
    let r := runAttempts (some p) rest
    (r.1, (p, true) :: r.2)
  | some q, p :: rest =>
    let r := runAttempts (some q) rest
    (r.1, (p, false) :: r.2)

/-- Whether a process had any successful attempt in the trace. -/
def succeededIn (results : List (Pid × Bool)) (p : Pid) : Bool :=
  results.any (fun r => r.1 == p && r.2)

/-- Embedding of `FileLock.acquire(timeout)` from `test/test-v2-hook.js`
as run by one process: while the elapsed time is below the timeout, try
an exclusive create (`attempt i` tells whether attempt `i` succeeds); on
`EEXIST` sleep 50 ms and retry; once the timeout elapses return `false`.
Fuel-indexed; `none` only when the fuel runs out. -/
def acquireV2 (attempt : Nat → Bool) (timeout : Nat) : Nat → Nat → Nat → Option Bool
  | _, _, 0 => none
  | t, i, fuel + 1 =>
    if timeout ≤ t then some false
    else if attempt i then some true
    else acquireV2 attempt timeout (t + 50) (i + 1) fuel

/-- Modelled from the spec: the v2 hook's main flow (absent from the
sources) performs its buffer and state writes only while holding the
lock; an invocation whose acquire returned `false` performs no side
effects and exits successfully. -/
def v2MainMutations (acquired : Bool) (writes : List String) : List String :=
  if acquired then writes else []

/-- Outcome of one HTTP request as seen by the response/error/timeout
callbacks. -/
inductive HttpOutcome where
  | response (status : Nat)
  | timedOut
  | connError

/-- The per-request timeout of `sendToServer` in `hooks/count_tokens.js`
(`timeout: 5000`). -/
def SEND_TO_SERVER_TIMEOUT_MS : Nat := 5000

/-- The per-request timeout of `sendBatch` in
`scripts/process-large-buffer.js` (`timeout: 10000`). -/
def SEND_BATCH_TIMEOUT_MS : Nat := 10000

/-- Embedding of the result classification of `sendToServer`
(`hooks/count_tokens.js`): the promise always resolves (never rejects);
`success` is true exactly for a response with a 2xx status code; a
non-2xx response, a connection error or a timeout all resolve to
`success: false`. -/
def sendToServerSuccess : HttpOutcome → Bool
  | .response s => 200 ≤ s && s < 300
  | _ => false

/-- Embedding of the result classification of `sendBatch`
(`scripts/process-large-buffer.js`): identical 2xx test; errors and
timeouts resolve to failure values rather than exceptions. -/
def sendBatchSuccess : HttpOutcome → Bool
  | .response s => 200 ≤ s && s < 300
  | _ => false

/-- A filesystem operation issued by the durable-write protocol. -/
inductive FsOp where
  | write (path content : String)
  | copy (src dst : String)
  | rename (src dst : String)

/-- A flat filesystem: an association list from path to content. -/
def getFile (fs : List (String × String)) (p : String) : Option String :=
  (fs.find? (fun e => e.1 == p)).map (fun e => e.2)

/-- Write (create or replace) a file. -/
def setFile (fs : List (String × String)) (p c : String) : List (String × String) :=
  (p, c) :: fs.filter (fun e => e.1 != p)

/-- Remove a file. -/
def removeFile (fs : List (String × String)) (p : String) : List (String × String) :=
  fs.filter (fun e => e.1 != p)

/-- Apply one operation to the filesystem.  `rename` is atomic: the
destination goes from its old content to the complete new content in one
step. -/
def applyOp (fs : List (String × String)) : FsOp → List (String × String)
  | .write p c => setFile fs p c
  | .copy src dst =>
    match getFile fs src with
    | some c => setFile fs dst c
    | none => fs
  | .rename src dst =>
    match getFile fs src with
    | some c => setFile (removeFile fs src) dst c
    | none => fs

/-- The temporary sibling name used by `atomicWriteJson`
(`${filepath}.tmp.${Date.now()}`). -/
def tmpFileName (target : String) (now : Nat) : String :=
  target ++ ".tmp." ++ toString now

/-- Embedding of `atomicWriteJson(filepath, data)` from
`test/test-v2-hook.js` as the sequence of filesystem operations it
issues: write the new content to the temporary sibling, copy the current
target to the `.backup` sibling when the target exists, then rename the
temporary file over the target. -/
def atomicWriteJson (target : String) (now : Nat) (targetExists : Bool)
    (content : String) : List FsOp :=
  [FsOp.write (tmpFileName target now) content]
    ++ (if targetExists then [FsOp.copy target (target ++ ".backup")] else [])
    ++ [FsOp.rename (tmpFileName target now) target]

/-- All filesystem states reached while executing a list of operations,
starting state included. -/
def opStates (fs : List (String × String)) : List FsOp → List (List (String × String))
  | [] => [fs]
  | op :: rest => fs :: opStates (applyOp fs op) rest

/-- The filesystem after executing a list of operations. -/
def applyOps (fs : List (String × String)) : List FsOp → List (String × String)
  | [] => fs
  | op :: rest => applyOps (applyOp fs op) rest

/-- The agent configuration `~/.claude/stats-config.json`. -/
structure StatsConfig where
  enabled : Bool
  serverUrl : String
  username : String

/-- Result of one hook invocation: the process exit code and whether a
send was attempted. -/
structure MainResult where
  exitCode : Nat
  sent : Bool

/-- Embedding of `main()` from `hooks/count_tokens.js`.  `injected` is the
`STATS_CONFIG` constant injected at install time (`none` when undefined);
`configFile` is `none` when `stats-config.json` is absent, `some none`
when present but unparseable (the thrown error is caught), and
`some (some c)` when parsed; `latest` is the result of
`getLatestUsageEntry()`.  The whole body is wrapped in try/catch and every
path calls `process.exit(0)`. -/
def mainRun (injected : Option StatsConfig) (configFile : Option (Option StatsConfig))
    (latest : Option UsageRecord) : MainResult :=
  match injected with
  | none =>
    match configFile with
    | none => ⟨0, false⟩
    | some none => ⟨0, false⟩
    | some (some c) =>
      if !c.enabled || c.serverUrl == "" then ⟨0, false⟩
      else match latest with
        | none => ⟨0, false⟩
        | some _ => ⟨0, true⟩
  | some c =>
    if !c.enabled || c.serverUrl == "" then ⟨0, false⟩
    else match latest with
      | none => ⟨0, false⟩
      | some _ => ⟨0, true⟩

/-- Embedding of the exit behaviour of `processLargeBuffer()` in
`scripts/process-large-buffer.js`: missing buffer or config file returns
normally (the runner exits 0); a read/parse failure of either file throws
inside the `try`, and the `catch` calls `process.exit(1)`.  The drain
itself never throws (`sendBatch` always resolves). -/
def processLargeBufferExitCode (bufferExists configExists : Bool)
    (configParses bufferParses : Bool) : Nat :=
  if !bufferExists then 0
  else if !configExists then 0
  else if !configParses then 1
  else if !bufferParses then 1
  else 0

/-- The leading digits of a character list, as consumed by `parseInt`. -/
def takeDigits : List Char → List Char
  | [] => []
  | c :: rest => if c.isDigit then c :: takeDigits rest else []

/-- Numeric value of a digit list. -/
def digitsToNat (l : List Char) : Nat :=
  l.foldl (fun acc c => acc * 10 + (c.toNat - 48)) 0

/-- Leading whitespace skipping, as `parseInt` does before reading the
number. -/
def skipWs : List Char → List Char
  | [] => []
  | c :: rest =>
    if c == ' ' || c == '\t' || c == '\n' || c == '\r' then skipWs rest else c :: rest

/-- The integer prefix of a string, as read by JavaScript `parseInt`:
optional leading whitespace, optional sign, then leading decimal digits;
`none` when no digit leads (`parseInt` yields `NaN`).  Hexadecimal
prefixes are not modelled (no token field in this system carries one). -/
def intPrefixOf (s : String) : Option Int :=
  match skipWs s.toList with
  | '-' :: rest =>
    let d := takeDigits rest
    if d.isEmpty then none else some (-(digitsToNat d : Int))
  | '+' :: rest =>
    let d := takeDigits rest
    if d.isEmpty then none else some ((digitsToNat d : Int))
  | l =>
    let d := takeDigits l
    if d.isEmpty then none else some ((digitsToNat d : Int))

/-- The `parseInt(x) || 0` coercion used by the submit route: the value is
stringified, its integer prefix taken, and `NaN` (no integer prefix, or a
missing field) falls back to `0`. -/
def jsParseIntOrZero : Option Json → Int
  | none => 0
  | some j => (intPrefixOf (jsToStr j)).getD 0

/-- A row prepared for `db.insertBatch` by the submit route. -/
structure DbRecord where
  username : String
  timestamp : Json
  input_tokens : Int
  output_tokens : Int
  cache_creation_tokens : Int
  cache_read_tokens : Int
  model : Json
  session_id : Json
  interaction_hash : Json

/-- The `Array.isArray(usage) ? usage : [usage]` normalisation. -/
def toRecords (usage : Json) : List Json :=
  match usage with
  | .arr l => l
  | v => [v]

/-- The record list the route works on; an absent `usage` field never
reaches this point (the request is rejected first), modelled as `[]`. -/
def usageRecordsOf : Option Json → List Json
  | none => []
  | some v => toRecords v

/-- The per-record filter of the submit route: a record is converted only
when both `record.timestamp` and `record.tokens` are truthy; all others
are skipped with `continue`.  (This total test is only meaningful for
non-`null` records; see `recordCheck` for the fallible access the code
performs.) -/
def validRecord (r : Json) : Bool :=
  jsTruthyOpt (jsGet (some r) "timestamp") && jsTruthyOpt (jsGet (some r) "tokens")

/-- The guard `!record.timestamp || !record.tokens` as the code executes
it: plain (non-optional) property access on `null` throws a `TypeError`
(`none`); on any other value it yields the truthiness test.  (`undefined`
cannot occur as an element of a `JSON.parse` result.) -/
def recordCheck : Json → Option Bool
  | Json.null => none
  | r => some (validRecord r)

/-- The row built from one accepted usage record by the submit route in
`server/routes/usage.js`: token fields go through `parseInt(x) || 0`,
`model` defaults to `'unknown'`, `session_id` and the hash chain default
to `null`. -/
def toDbRecord (username : String) (r : Json) : DbRecord :=
  let tokens := jsGet (some r) "tokens"
  { username := username
    timestamp := (jsGet (some r) "timestamp").getD Json.null
    input_tokens := jsParseIntOrZero (jsGet tokens "input")
    output_tokens := jsParseIntOrZero (jsGet tokens "output")
    cache_creation_tokens := jsParseIntOrZero (jsGet tokens "cache_creation")
    cache_read_tokens := jsParseIntOrZero (jsGet tokens "cache_read")
    model := jsOr (jsGet (some r) "model") (Json.str "unknown")
    session_id := jsOr (jsGet (some r) "session_id") Json.null
    interaction_hash :=
      jsOr (some (jsOr (jsGet (some r) "interaction_hash")
        (jsOr (jsGet (some r) "interaction_id") Json.null))) Json.null }

/-- Result of the validation phase of `POST /api/usage/submit`: a 400
rejection (carrying the error string, with zero insertions), a 500 from
the outer `catch` (a thrown `TypeError`, also with zero insertions), or
the list of rows passed on to `db.insertBatch`. -/
inductive SubmitResult where
  | badRequest (error : String)
  | serverError
  | ok (records : List DbRecord)

/-- The conversion loop of the submit route: records failing the guard
are skipped with `continue`, records passing it are converted and pushed;
a `null` record makes the guard's property access throw, aborting the
whole request (`none`, turned into a 500 by the outer `catch`). -/
def buildDbRecords (username : String) : List Json → Option (List DbRecord)
  | [] => some []
  | r :: rest =>
    match recordCheck r with
    | none => none
    | some false => buildDbRecords username rest
    | some true =>
      match buildDbRecords username rest with
      | none => none
      | some tail => some (toDbRecord username r :: tail)

/-- The `typeof username === 'string'` test: the underlying string when
the value is a string, `none` otherwise. -/
def usernameStr : Option Json → Option String
  | some (Json.str u) => some u
  | _ => none

/-- Embedding of the `router.post('/submit')` handler of
`server/routes/usage.js` up to the database call: the body's `username`
and `usage` fields (`none` for an absent field) are validated in the
code's order — missing/falsy fields, username type and length, record
count bounds, then the per-record filter; when no record survives the
filter the request is rejected. -/
def submitHandler (username usage : Option Json) : SubmitResult :=
  if !(jsTruthyOpt username && jsTruthyOpt usage) then
    .badRequest "Missing required fields"
  else
    match usernameStr username with
    | none => .badRequest "Invalid username"
    | some u =>
      if u.length < 1 || 50 < u.length then .badRequest "Invalid username"
      else
        let records := toRecords (usage.getD Json.null)
        if records.length = 0 then .badRequest "No records to submit"
        else if 1000 < records.length then .badRequest "Too many records"
        else
          match buildDbRecords u records with
          | none => .serverError
          | some dbRecords =>
            if dbRecords.length = 0 then .badRequest "No valid records to submit"
            else .ok dbRecords

/-- The rows that reach the database from one request: none on a 400 or
a 500. -/
def insertedRows : SubmitResult → List DbRecord
  | .badRequest _ => []
  | .serverError => []
  | .ok l => l

/-- The exact rejection condition stated by the claim: the username is
missing or not a 1-to-50-character string, or the record list is empty,
or it exceeds 1000 records, or no record has both a timestamp and a
tokens field. -/
def claimRejects (username usage : Option Json) : Prop :=
  (¬ ∃ u, username = some (Json.str u) ∧ 1 ≤ u.length ∧ u.length ≤ 50)
  ∨ usageRecordsOf usage = []
  ∨ 1000 < (usageRecordsOf usage).length
  ∨ ∀ r ∈ usageRecordsOf usage, validRecord r = false

/-- A concrete well-formed log line whose usage object has no cache
fields. -/
def c5Line : Json :=
  Json.obj [("timestamp", Json.str "2024-01-01T00:00:00Z"),
            ("message", Json.obj [("usage",
              Json.obj [("input_tokens", Json.num 5), ("output_tokens", Json.num 3)])])]

/-- A concrete log line dated 2024-01-01 whose identity hash (under the
identity digest) is `"2024-01-01T00:00:00Z"`. -/
def c2Line : Json :=
  Json.obj [("timestamp", Json.str "2024-01-01T00:00:00Z"),
            ("message", Json.obj [("usage",
              Json.obj [("input_tokens", Json.num 7), ("output_tokens", Json.num 2)])])]

/-- A state in which that very hash was recorded under the day-key
2024-01-02 (the ship day), not under the record's own day 2024-01-01. -/
def c2State : ProcessedState :=
  ⟨"2.0.0", "", [("2024-01-02", ["2024-01-01T00:00:00Z"])]⟩

/-- A concrete log line dated 2024-01-01 for the amended-claim witness. -/
def c2WitnessLine : Json :=
  Json.obj [("timestamp", Json.str "2024-01-01T09:00:00Z"),
            ("message", Json.obj [("usage",
              Json.obj [("input_tokens", Json.num 1), ("output_tokens", Json.num 2)])])]

/-- A state holding an unrelated hash under the record's own day-key. -/
def c2WitnessState : ProcessedState :=
  ⟨"2.0.0", "", [("2024-01-01", ["otherhash"])]⟩

/-- The record produced by scanning `c2WitnessLine` with the identity
digest. -/
def c2WitnessRec : UsageRecord :=
  { timestamp := Json.str "2024-01-01T09:00:00Z"
    tokens := ⟨Json.num 1, Json.num 2, Json.num 0, Json.num 0⟩
    model := Json.str "unknown"
    session_id := Json.null
    interaction_hash := "2024-01-01T09:00:00Z" }

/-- The batch-outcome pattern in which the first batch fails and every
other batch succeeds. -/
def c1FirstBatchFails (i : Nat) : Bool :=
  decide (i ≠ 0)

/-- An empty processed state. -/
def c4EmptyState : ProcessedState :=
  ⟨"2.0.0", "", []⟩

/-- A 25 MB source file holding one valid line. -/
def c4BigFile : SourceFile :=
  ⟨25 * 1024 * 1024,
   [some (Json.obj [("timestamp", Json.str "2024-03-01T00:00:00Z"),
      ("message", Json.obj [("usage",
        Json.obj [("input_tokens", Json.num 9), ("output_tokens", Json.num 1)])])])]⟩

/-- A small sibling source file holding one valid line. -/
def c4SmallFile : SourceFile :=
  ⟨200,
   [some (Json.obj [("timestamp", Json.str "2024-03-02T00:00:00Z"),
      ("message", Json.obj [("usage",
        Json.obj [("input_tokens", Json.num 4), ("output_tokens", Json.num 6)])])])]⟩

/-- A usage item with a timestamp and a tokens object that lacks the
`input` field. -/
def c10Rec : Json :=
  Json.obj [("timestamp", Json.str "2024-05-05T10:00:00Z"),
            ("tokens", Json.obj [("output", Json.num 3)])]

/-! ## Theorems -/

/-- Claim C5: a line yields no record exactly when it is not well-formed
JSON, or lacks a (truthy) timestamp, or lacks a nested (truthy) usage
object, or its input/output token fields are not numeric; and in every
successfully parsed record, absent cache fields are defaulted to zero. -/
theorem parseUsageFromLine_spec (hash : String → String) (line : Option Json) :
    (parseUsageFromLine hash line = none ↔
      (line = none
        ∨ jsTruthyOpt (jsGet line "timestamp") = false
        ∨ jsTruthyOpt (jsGet (jsGet line "message") "usage") = false
        ∨ isNum (jsGet (jsGet (jsGet line "message") "usage") "input_tokens") = false
        ∨ isNum (jsGet (jsGet (jsGet line "message") "usage") "output_tokens") = false))
    ∧ (∀ r, parseUsageFromLine hash line = some r →
        (jsGet (jsGet (jsGet line "message") "usage") "cache_creation_input_tokens" = none →
          r.tokens.cache_creation = Json.num 0)
        ∧ (jsGet (jsGet (jsGet line "message") "usage") "cache_read_input_tokens" = none →
          r.tokens.cache_read = Json.num 0)) := by
  cases line with
  | none => simp [parseUsageFromLine, jsGet]
  | some data =>
    constructor
    · simp only [parseUsageFromLine]
      by_cases ht : jsTruthyOpt (jsGet (some data) "timestamp") <;>
        by_cases hu : jsTruthyOpt (jsGet (jsGet (some data) "message") "usage") <;>
          simp only [ht, hu, Bool.and_true, Bool.and_false, Bool.true_and, Bool.false_and,
            if_true, if_false, Bool.and_self]
      · constructor
        · intro h
          cases hin : jsGet (jsGet (jsGet (some data) "message") "usage") "input_tokens" with
          | none => simp [isNum]
          | some ji =>
            cases hout : jsGet (jsGet (jsGet (some data) "message") "usage") "output_tokens" with
            | none => simp [isNum]
            | some jo =>
              rw [hin, hout] at h
              cases ji <;> cases jo <;> simp_all [isNum]
        · intro h
          rcases h with h | h | h | h | h
          · exact absurd h (by simp)
          · exact absurd h (by simp [ht])
          · exact absurd h (by simp [hu])
          · cases hin : jsGet (jsGet (jsGet (some data) "message") "usage") "input_tokens" with
            | none =>
              cases hout : jsGet (jsGet (jsGet (some data) "message") "usage") "output_tokens" with
              | none => rfl
              | some jo => cases jo <;> rfl
            | some ji =>
              cases hout : jsGet (jsGet (jsGet (some data) "message") "usage") "output_tokens" with
              | none => cases ji <;> rfl
              | some jo => cases ji <;> cases jo <;> simp_all [isNum]
          · cases hin : jsGet (jsGet (jsGet (some data) "message") "usage") "input_tokens" with
            | none =>
              cases hout : jsGet (jsGet (jsGet (some data) "message") "usage") "output_tokens" with
              | none => rfl
              | some jo => cases jo <;> rfl
            | some ji =>
              cases hout : jsGet (jsGet (jsGet (some data) "message") "usage") "output_tokens" with
              | none => cases ji <;> rfl
              | some jo => cases ji <;> cases jo <;> simp_all [isNum]
      · simp
      · simp
      · simp
    · intro r h
      simp only [parseUsageFromLine] at h
      by_cases hcond : (jsTruthyOpt (jsGet (some data) "timestamp")
          && jsTruthyOpt (jsGet (jsGet (some data) "message") "usage")) = true
      · rw [if_pos hcond] at h
        cases hin : jsGet (jsGet (jsGet (some data) "message") "usage") "input_tokens" with
        | none => rw [hin] at h; simp at h
        | some ji =>
          cases hout : jsGet (jsGet (jsGet (some data) "message") "usage") "output_tokens" with
          | none => rw [hin, hout] at h; cases ji <;> simp_all
          | some jo =>
            rw [hin, hout] at h
            cases ji <;> cases jo <;> simp_all
            obtain rfl := h.symm
            constructor
            · intro hc; simp [jsOr, hc]
            · intro hc; simp [jsOr, hc]
      · rw [if_neg hcond] at h; simp at h

/-- Claim C5, witness: the concrete line `c5Line` parses to a record
whose cache fields, absent in the input, were defaulted to zero. -/
theorem parseUsageFromLine_spec_witness :
    (parseUsageFromLine (fun s => s) (some c5Line)).map (fun r => r.tokens.cache_creation)
        = some (Json.num 0)
    ∧ (parseUsageFromLine (fun s => s) (some c5Line)).map (fun r => r.tokens.cache_read)
        = some (Json.num 0) := by
  cases hr : parseUsageFromLine (fun s => s) (some c5Line) with
  | none =>
    rcases (parseUsageFromLine_spec (fun s => s) (some c5Line)).1.mp hr with h | h | h | h | h
    · exact Option.noConfusion h
    · exact absurd h (by decide)
    · exact absurd h (by decide)
    · exact absurd h (by decide)
    · exact absurd h (by decide)
  | some r =>
    have h2 := (parseUsageFromLine_spec (fun s => s) (some c5Line)).2 r hr
    exact ⟨congrArg some (h2.1 rfl), congrArg some (h2.2 rfl)⟩

/-- Claim C2 (amended): the Source Scanner deduplicates against the
day-key derived from the record's own timestamp — no output record's
hash is present in `recentHashes` under that day-key.  A hash recorded
under a different day-key (e.g. the ship day) does not prevent
re-collection; see the counterexample. -/
theorem parseJsonlFile_own_day_dedup (hash : String → String) (state : ProcessedState)
    (lines : List (Option Json)) (r : UsageRecord)
    (hr : r ∈ parseJsonlFile hash state lines) (d : String)
    (hd : dayKeyOf r.timestamp = some d) :
    ((lookupDay state d).getD []).contains r.interaction_hash = false := by
  induction lines with
  | nil => simp [parseJsonlFile] at hr
  | cons line rest ih =>
    simp only [parseJsonlFile] at hr
    cases hp : parseUsageFromLine hash line with
    | none => simp only [hp] at hr; exact ih hr
    | some entry =>
      simp only [hp] at hr
      cases hdk : dayKeyOf entry.timestamp with
      | none => simp only [hdk] at hr; simp at hr
      | some dayKey =>
        simp only [hdk] at hr
        by_cases hc : ((lookupDay state dayKey).getD []).contains entry.interaction_hash = true
        · rw [if_pos hc] at hr; exact ih hr
        · rw [if_neg hc] at hr
          rcases List.mem_cons.mp hr with rfl | hmem
          · rw [hd] at hdk
            cases hdk
            exact Bool.eq_false_iff.mpr hc
          · exact ih hmem

/-- Claim C2, counterexample: scanning `c2Line` against `c2State` outputs
the record even though its hash is present in `recentHashes` (under the
ship-day key 2024-01-02, which differs from the record's own day). -/
theorem parseJsonlFile_cross_day_counterexample :
    (parseJsonlFile (fun s => s) c2State [some c2Line]).map (fun r => r.interaction_hash)
        = ["2024-01-01T00:00:00Z"]
    ∧ hashAnywhere c2State "2024-01-01T00:00:00Z" = true :=
  ⟨rfl, rfl⟩

/-- Claim C2, witness for the amended claim: applied to the concrete scan
of `c2WitnessLine` against `c2WitnessState`. -/
theorem parseJsonlFile_own_day_dedup_witness :
    ((lookupDay c2WitnessState "2024-01-01").getD []).contains
      c2WitnessRec.interaction_hash = false :=
  parseJsonlFile_own_day_dedup (fun s => s) c2WitnessState [some c2WitnessLine] c2WitnessRec
    (by rw [show parseJsonlFile (fun s => s) c2WitnessState [some c2WitnessLine]
          = [c2WitnessRec] from rfl]
        exact List.mem_singleton.mpr rfl)
    "2024-01-01" rfl

/-- Claim C1 (the code evaluated at the failing input): draining 100
buffered records in two batches of 50 where the first batch fails and the
second succeeds, `processLargeBuffer` re-persists `entries.slice(50)` —
exactly the records of the *succeeded* second batch — while the failed
first batch's records (`entries[0..49]`) are dropped as if shipped.  The
re-persisted set is not the failed set, records are lost, and the
shipped/re-persisted split overlaps with the succeeded records. -/
theorem processLargeBuffer_tail_slice_bug :
    processLargeBufferRemaining c1FirstBatchFails (List.range 100)
        = (List.range 100).drop 50
    ∧ failedBatchRecords c1FirstBatchFails 0 (chunksOf (List.range 100))
        = (List.range 100).take 50
    ∧ succeededBatchRecords c1FirstBatchFails 0 (chunksOf (List.range 100))
        = (List.range 100).drop 50
    ∧ (List.range 100).drop 50 ≠ (List.range 100).take 50 :=
  ⟨by decide, by decide, by decide, by decide⟩

/-- Claim C4 (the code evaluated at the failing input): a 25 MB source
file — above the documented 20 MB ceiling — is parsed like any other and
contributes its records ahead of its small sibling; no size check exists
in `collectNewUsageData`/`parseJsonlFile`. -/
theorem oversized_file_not_skipped :
    MAX_FILE_SIZE < c4BigFile.size
    ∧ (collectNewUsageData (fun s => s) c4EmptyState [c4BigFile, c4SmallFile]).map
        (fun r => r.interaction_hash)
      = ["2024-03-01T00:00:00Z", "2024-03-02T00:00:00Z"] :=
  ⟨by decide, rfl⟩

/-- Claim C6, counterexample: the per-request timeout of `sendBatch` in
the large-buffer drain script is 10 seconds, not the claimed fixed 5
seconds. -/
theorem sendBatch_timeout_counterexample : SEND_BATCH_TIMEOUT_MS ≠ 5000 := by
  decide

/-- Claim C6 (amended): for both request functions a request is classified
a success exactly when the response status is in the 2xx range, and every
other outcome (non-2xx, timeout, connection error) resolves to a failure
value rather than an exception; `sendToServer` carries a 5-second timeout
while the drain script's `sendBatch` carries a 10-second one. -/
theorem transport_classification_spec (o : HttpOutcome) :
    (sendToServerSuccess o = true ↔ ∃ s, o = HttpOutcome.response s ∧ 200 ≤ s ∧ s < 300)
    ∧ (sendBatchSuccess o = true ↔ ∃ s, o = HttpOutcome.response s ∧ 200 ≤ s ∧ s < 300)
    ∧ SEND_TO_SERVER_TIMEOUT_MS = 5000
    ∧ SEND_BATCH_TIMEOUT_MS = 10000 := by
  refine ⟨?_, ?_, rfl, rfl⟩ <;>
  · cases o with
    | response s =>
      simp only [sendToServerSuccess, sendBatchSuccess, Bool.and_eq_true, decide_eq_true_eq]
      constructor
      · rintro ⟨h1, h2⟩; exact ⟨s, rfl, h1, h2⟩
      · rintro ⟨s2, hs, h1, h2⟩
        cases hs
        exact ⟨h1, h2⟩
    | timedOut =>
      simp only [sendToServerSuccess, sendBatchSuccess]
      constructor
      · intro h; cases h
      · rintro ⟨s2, hs, h1, h2⟩; cases hs
    | connError =>
      simp only [sendToServerSuccess, sendBatchSuccess]
      constructor
      · intro h; cases h
      · rintro ⟨s2, hs, h1, h2⟩; cases hs

/-- With every observation a non-stale sentinel, the acquire loop sleeps
100 ms per attempt and returns failure once the timeout is reached. -/
theorem acquireRun_nonstale_timeout (env : Nat → SentinelObs)
    (hobs : ∀ j, ∃ age, env j = SentinelObs.present age ∧ age ≤ LOCK_STALE_MS) :
    ∀ fuel t i, LOCK_TIMEOUT_MS ≤ t + LOCK_SLEEP_MS * fuel →
      acquireRun env LOCK_TIMEOUT_MS t i (fuel + 1) = some false := by
  intro fuel
  induction fuel with
  | zero =>
    intro t i ht
    simp only [Nat.mul_zero, Nat.add_zero] at ht
    simp [acquireRun, acquireStep, ht]
  | succ n ih =>
    intro t i ht
    by_cases htime : LOCK_TIMEOUT_MS ≤ t
    · simp [acquireRun, acquireStep, htime]
    · obtain ⟨age, hage, hle⟩ := hobs i
      have hstep : acquireStep LOCK_TIMEOUT_MS t (env i) = LockStep.sleepRetry LOCK_SLEEP_MS := by
        rw [hage]
        simp only [acquireStep, if_neg htime]
        rw [if_neg (by omega)]
      rw [acquireRun, hstep]
      exact ih (t + LOCK_SLEEP_MS) (i + 1) (by simp only [LOCK_SLEEP_MS] at ht ⊢; omega)

/-- Claim C3 (modelled from the spec; the v2 `FileLock` with staleness
handling is not among the sources): while the timeout has not elapsed, an
existing sentinel older than the 10-second staleness threshold is deleted
and the acquisition retried immediately — so a stale lock left by a
crashed holder is reclaimed on the very next attempt; a non-stale
sentinel causes a 100 ms sleep before the retry; and once the 5-second
timeout elapses the acquire returns failure (`some false`), not an
error. -/
theorem fileLock_acquire_spec :
    (∀ t age, t < LOCK_TIMEOUT_MS → LOCK_STALE_MS < age →
        acquireStep LOCK_TIMEOUT_MS t (SentinelObs.present age) = LockStep.deleteRetry)
    ∧ (∀ env : Nat → SentinelObs, env 0 = SentinelObs.present 10001 →
        env 1 = SentinelObs.absent →
        acquireRun env LOCK_TIMEOUT_MS 0 0 2 = some true)
    ∧ (∀ t age, t < LOCK_TIMEOUT_MS → age ≤ LOCK_STALE_MS →
        acquireStep LOCK_TIMEOUT_MS t (SentinelObs.present age)
          = LockStep.sleepRetry LOCK_SLEEP_MS)
    ∧ (∀ (env : Nat → SentinelObs) t i fuel, LOCK_TIMEOUT_MS ≤ t →
        acquireRun env LOCK_TIMEOUT_MS t i (fuel + 1) = some false)
    ∧ (∀ env : Nat → SentinelObs,
        (∀ j, ∃ age, env j = SentinelObs.present age ∧ age ≤ LOCK_STALE_MS) →
        acquireRun env LOCK_TIMEOUT_MS 0 0 51 = some false) := by
  refine ⟨?_, ?_, ?_, ?_, ?_⟩
  · intro t age ht hage
    simp only [acquireStep, if_neg (by omega : ¬ LOCK_TIMEOUT_MS ≤ t)]
    rw [if_pos hage]
  · intro env h0 h1
    rw [acquireRun]
    rw [show acquireStep LOCK_TIMEOUT_MS 0 (env 0) = LockStep.deleteRetry by
          rw [h0]; simp [acquireStep, LOCK_TIMEOUT_MS, LOCK_STALE_MS]]
    rw [acquireRun]
    rw [show acquireStep LOCK_TIMEOUT_MS 0 (env 1) = LockStep.acquired by
          rw [h1]; simp [acquireStep, LOCK_TIMEOUT_MS]]
  · intro t age ht hage
    simp only [acquireStep, if_neg (by omega : ¬ LOCK_TIMEOUT_MS ≤ t)]
    rw [if_neg (by omega)]
  · intro env t i fuel ht
    simp [acquireRun, acquireStep, ht]
  · intro env hobs
    exact acquireRun_nonstale_timeout env hobs 50 0 0 (by simp [LOCK_TIMEOUT_MS, LOCK_SLEEP_MS])

/-- Claim C3, witness: the specification applied at concrete observation
sequences — stale reclaim from a sentinel aged 10.001 s, immediate delete
of a stale sentinel, a 100 ms sleep on a sentinel aged 0.5 s, timeout
failure at 5 s, and full-run failure against a never-stale holder. -/
theorem fileLock_acquire_spec_witness :
    acquireStep LOCK_TIMEOUT_MS 0 (SentinelObs.present 10001) = LockStep.deleteRetry
    ∧ acquireRun (fun i => if i = 0 then SentinelObs.present 10001 else SentinelObs.absent)
        LOCK_TIMEOUT_MS 0 0 2 = some true
    ∧ acquireStep LOCK_TIMEOUT_MS 0 (SentinelObs.present 500)
        = LockStep.sleepRetry LOCK_SLEEP_MS
    ∧ acquireRun (fun _ => SentinelObs.present 500) LOCK_TIMEOUT_MS 5000 0 1 = some false
    ∧ acquireRun (fun _ => SentinelObs.present 500) LOCK_TIMEOUT_MS 0 0 51 = some false := by
  refine ⟨fileLock_acquire_spec.1 0 10001 (by decide) (by decide),
          fileLock_acquire_spec.2.1 _ rfl rfl,
          fileLock_acquire_spec.2.2.1 0 500 (by decide) (by decide),
          fileLock_acquire_spec.2.2.2.1 _ 5000 0 0 (by decide),
          fileLock_acquire_spec.2.2.2.2 _ (fun j => ⟨500, rfl, by decide⟩)⟩

/-- Reading back the path just written. -/
theorem getFile_setFile_same (fs : List (String × String)) (p c : String) :
    getFile (setFile fs p c) p = some c := by
  simp [getFile, setFile, List.find?]

/-- A filtered-out key is not found: looking up `q` ignores entries whose
key equals `p` when `q` differs from `p`. -/
theorem find?_filter_ne (fs : List (String × String)) (p q : String) (h : q ≠ p) :
    (List.filter (fun e => e.1 != p) fs).find? (fun e => e.1 == q)
      = fs.find? (fun e => e.1 == q) := by
  induction fs with
  | nil => rfl
  | cons e rest ih =>
    by_cases hep : e.1 = p
    · rw [List.filter_cons_of_neg (by simp [hep])]
      rw [List.find?_cons_of_neg _ (by simp [hep]; exact fun hq => h hq.symm)]
      exact ih
    · rw [List.filter_cons_of_pos (by simp [hep])]
      by_cases heq : e.1 = q
      · rw [List.find?_cons_of_pos _ (by simp [heq]),
            List.find?_cons_of_pos _ (by simp [heq])]
      · rw [List.find?_cons_of_neg _ (by simp [heq]),
            List.find?_cons_of_neg _ (by simp [heq])]
        exact ih

/-- Writing one path leaves every other path unchanged. -/
theorem getFile_setFile_other (fs : List (String × String)) (p c q : String)
    (h : q ≠ p) :
    getFile (setFile fs p c) q = getFile fs q := by
  simp only [getFile, setFile]
  rw [List.find?_cons_of_neg _ (by simp; exact fun hq => h hq.symm)]
  rw [find?_filter_ne fs p q h]

/-- Removing one path leaves every other path unchanged. -/
theorem getFile_removeFile_other (fs : List (String × String)) (p q : String)
    (h : q ≠ p) :
    getFile (removeFile fs p) q = getFile fs q := by
  simp only [getFile, removeFile]
  rw [find?_filter_ne fs p q h]

/-- The temporary sibling never collides with the target. -/
theorem target_ne_tmpFileName (target : String) (now : Nat) :
    target ≠ tmpFileName target now := by
  intro h
  have hl := congrArg String.length h
  simp only [tmpFileName, String.length_append] at hl
  have h5 : ".tmp.".length = 5 := rfl
  omega

/-- The backup sibling never collides with the target. -/
theorem target_ne_backup (target : String) :
    target ≠ target ++ ".backup" := by
  intro h
  have hl := congrArg String.length h
  simp only [String.length_append] at hl
  have h7 : ".backup".length = 7 := rfl
  omega

/-- The temporary sibling never collides with the backup sibling. -/
theorem tmpFileName_ne_backup (target : String) (now : Nat) :
    tmpFileName target now ≠ target ++ ".backup" := by
  intro h
  have hd := congrArg String.data h
  simp only [tmpFileName, String.data_append] at hd
  rw [List.append_assoc] at hd
  have h2 := List.append_cancel_left hd
  have h3 : (['.', 't'] : List Char) = ['.', 'b'] := congrArg (List.take 2) h2
  exact absurd h3 (by decide)

/-- Claim C7: the durable-write protocol issues exactly write-temp,
copy-to-backup (when the target exists), rename-temp-over-target, in that
order; in every filesystem state before the final atomic rename the
target still holds exactly its old content, and after the rename it holds
exactly the new content with the backup holding the old — the target is
never observed half-written. -/
theorem atomicWriteJson_protocol (fs : List (String × String)) (target : String)
    (now : Nat) (content old : String) (hold : getFile fs target = some old) :
    atomicWriteJson target now true content
        = [FsOp.write (tmpFileName target now) content,
           FsOp.copy target (target ++ ".backup"),
           FsOp.rename (tmpFileName target now) target]
    ∧ atomicWriteJson target now false content
        = [FsOp.write (tmpFileName target now) content,
           FsOp.rename (tmpFileName target now) target]
    ∧ (∀ st ∈ (opStates fs (atomicWriteJson target now true content)).dropLast,
        getFile st target = some old)
    ∧ getFile (applyOps fs (atomicWriteJson target now true content)) target = some content
    ∧ getFile (applyOps fs (atomicWriteJson target now true content)) (target ++ ".backup")
        = some old := by
  have htmp : target ≠ tmpFileName target now := target_ne_tmpFileName target now
  have hbak : target ≠ target ++ ".backup" := target_ne_backup target
  have htb : tmpFileName target now ≠ target ++ ".backup" := tmpFileName_ne_backup target now
  have h1 : getFile (setFile fs (tmpFileName target now) content) target = some old := by
    rw [getFile_setFile_other fs (tmpFileName target now) content target htmp]
    exact hold
  have h1t : getFile (setFile fs (tmpFileName target now) content)
      (tmpFileName target now) = some content := getFile_setFile_same fs _ content
  have h2 : getFile (setFile (setFile fs (tmpFileName target now) content)
      (target ++ ".backup") old) target = some old := by
    rw [getFile_setFile_other _ (target ++ ".backup") old target hbak]
    exact h1
  have h2t : getFile (setFile (setFile fs (tmpFileName target now) content)
      (target ++ ".backup") old) (tmpFileName target now) = some content := by
    rw [getFile_setFile_other _ (target ++ ".backup") old (tmpFileName target now) htb]
    exact h1t
  have h2b : getFile (setFile (setFile fs (tmpFileName target now) content)
      (target ++ ".backup") old) (target ++ ".backup") = some old :=
    getFile_setFile_same _ _ old
  refine ⟨rfl, rfl, ?_, ?_, ?_⟩
  · intro st hst
    have hdl : (opStates fs (atomicWriteJson target now true content)).dropLast
        = [fs, setFile fs (tmpFileName target now) content,
           setFile (setFile fs (tmpFileName target now) content) (target ++ ".backup") old] := by
      show (opStates fs [FsOp.write (tmpFileName target now) content,
          FsOp.copy target (target ++ ".backup"),
          FsOp.rename (tmpFileName target now) target]).dropLast = _
      simp only [opStates, applyOp, h1]
      rfl
    rw [hdl] at hst
    simp only [List.mem_cons, List.not_mem_nil, or_false] at hst
    rcases hst with rfl | rfl | rfl
    · exact hold
    · exact h1
    · exact h2
  · show getFile (applyOps fs [FsOp.write (tmpFileName target now) content,
        FsOp.copy target (target ++ ".backup"),
        FsOp.rename (tmpFileName target now) target]) target = some content
    simp only [applyOps, applyOp, h1, h2t]
    exact getFile_setFile_same _ target content
  · show getFile (applyOps fs [FsOp.write (tmpFileName target now) content,
        FsOp.copy target (target ++ ".backup"),
        FsOp.rename (tmpFileName target now) target]) (target ++ ".backup") = some old
    simp only [applyOps, applyOp, h1, h2t]
    rw [getFile_setFile_other _ target content (target ++ ".backup") (Ne.symm hbak)]
    rw [getFile_removeFile_other _ (tmpFileName target now) (target ++ ".backup") (Ne.symm htb)]
    exact h2b

/-- Claim C7, witness: the protocol applied to a concrete filesystem
holding `"oldstate"` at `"state.json"`. -/
theorem atomicWriteJson_protocol_witness :
    (∀ st ∈ (opStates [("state.json", "oldstate")]
        (atomicWriteJson "state.json" 1700000000 true "newstate")).dropLast,
      getFile st "state.json" = some "oldstate")
    ∧ getFile (applyOps [("state.json", "oldstate")]
        (atomicWriteJson "state.json" 1700000000 true "newstate")) "state.json"
        = some "newstate" := by
  have h := atomicWriteJson_protocol [("state.json", "oldstate")] "state.json"
    1700000000 "newstate" "oldstate" rfl
  exact ⟨h.2.2.1, h.2.2.2.1⟩

/-- Claim C8, counterexample: the large-buffer drain entry point named by
the claim's sources exits with code 1 — not a success code — when its
config file exists but fails to parse. -/
theorem processLargeBuffer_exit_counterexample :
    processLargeBufferExitCode true true false true = 1
    ∧ processLargeBufferExitCode true true false true ≠ 0 := by
  exact ⟨rfl, by decide⟩

/-- Claim C8 (amended): the hook entry point `main` always exits with
code 0 — with absent configuration, `enabled` false or an empty
`serverUrl` it performs no work (no send) and still exits 0, and a thrown
internal error (unparseable config, modelled by `some none`) is caught —
while the standalone large-buffer drain script exits 1 exactly when both
its files exist and reading/parsing either fails. -/
theorem main_exit_spec :
    (∀ inj cfgFile latest, (mainRun inj cfgFile latest).exitCode = 0)
    ∧ (∀ latest, mainRun none none latest = ⟨0, false⟩)
    ∧ (∀ latest, mainRun none (some none) latest = ⟨0, false⟩)
    ∧ (∀ (c : StatsConfig) latest cfgFile, c.enabled = false ∨ c.serverUrl = "" →
        mainRun none (some (some c)) latest = ⟨0, false⟩
          ∧ mainRun (some c) cfgFile latest = ⟨0, false⟩)
    ∧ (∀ b c p q, processLargeBufferExitCode b c p q = 1 ↔
        b = true ∧ c = true ∧ (p = false ∨ q = false)) := by
  refine ⟨?_, fun latest => rfl, fun latest => rfl, ?_, by decide⟩
  · intro inj cfgFile latest
    cases inj with
    | none =>
      cases cfgFile with
      | none => rfl
      | some oc =>
        cases oc with
        | none => rfl
        | some c =>
          simp only [mainRun]
          split
          · rfl
          · cases latest <;> rfl
    | some c =>
      simp only [mainRun]
      split
      · rfl
      · cases latest <;> rfl
  · intro c latest cfgFile h
    have hcond : (!c.enabled || c.serverUrl == "") = true := by
      rcases h with h | h
      · simp [h]
      · simp [h]
    constructor
    · simp only [mainRun]
      rw [if_pos hcond]
    · simp only [mainRun]
      rw [if_pos hcond]

/-- Claim C8, witness: the amended claim applied with a disabled
configuration and with a corrupt (unparseable) drain-script config
file. -/
theorem main_exit_spec_witness :
    mainRun none (some (some ⟨false, "http://example.com", "alice"⟩)) none = ⟨0, false⟩
    ∧ (mainRun (some ⟨true, "http://example.com", "alice"⟩) none none).exitCode = 0
    ∧ processLargeBufferExitCode true true false true = 1 := by
  refine ⟨(main_exit_spec.2.2.2.1 ⟨false, "http://example.com", "alice"⟩ none none
            (Or.inl rfl)).1,
          main_exit_spec.1 (some ⟨true, "http://example.com", "alice"⟩) none none,
          (main_exit_spec.2.2.2.2 true true false true).mpr ⟨rfl, rfl, Or.inl rfl⟩⟩

/-- While a holder exists and no release occurs, every further exclusive
create fails and the holder is unchanged. -/
theorem runAttempts_held (rest : List Pid) (q : Pid) :
    (runAttempts (some q) rest).1 = some q
    ∧ ∀ r ∈ (runAttempts (some q) rest).2, r.2 = false := by
  induction rest with
  | nil => exact ⟨rfl, fun r hr => absurd hr (List.not_mem_nil r)⟩
  | cons p rest2 ih =>
    simp only [runAttempts]
    refine ⟨ih.1, ?_⟩
    intro r hr
    rcases List.mem_cons.mp hr with rfl | hm
    · rfl
    · exact ih.2 r hm

/-- A process all of whose exclusive-create attempts fail keeps sleeping
50 ms per attempt and returns `some false` once the timeout elapses. -/
theorem acquireV2_all_fail (attempt : Nat → Bool) (hfail : ∀ j, attempt j = false) :
    ∀ fuel timeout t i, timeout ≤ t + 50 * fuel →
      acquireV2 attempt timeout t i (fuel + 1) = some false := by
  intro fuel
  induction fuel with
  | zero =>
    intro timeout t i ht
    simp only [Nat.mul_zero, Nat.add_zero] at ht
    simp [acquireV2, ht]
  | succ n ih =>
    intro timeout t i ht
    by_cases htime : timeout ≤ t
    · simp [acquireV2, htime]
    · rw [acquireV2]
      rw [if_neg htime, hfail i]
      simp only [Bool.false_eq_true, if_false]
      exact ih timeout (t + 50) (i + 1) (by omega)

/-- Claim C9: for every nonempty interleaving of the two processes'
atomic exclusive-create attempts against an initially free sentinel, with
the winner holding the lock throughout the window, exactly one create
succeeds — the first one scheduled — so exactly one of the two concurrent
acquire calls returns `true`; an acquire whose creates all fail returns
`false` (not an error) once its timeout has elapsed across its 50 ms
sleeps; and (modelled from the spec, the v2 main flow being absent from
the sources) a non-acquiring invocation performs no buffer or state
writes. -/
theorem lock_mutual_exclusion (schedule : List Pid) (hne : schedule ≠ []) :
    ((runAttempts none schedule).2.filter (fun r => r.2)).length = 1
    ∧ (∀ p, succeededIn (runAttempts none schedule).2 p = true ↔ schedule.head? = some p)
    ∧ (∀ (attempt : Nat → Bool) timeout t i fuel, (∀ j, attempt j = false) →
        timeout ≤ t + 50 * fuel →
        acquireV2 attempt timeout t i (fuel + 1) = some false)
    ∧ (∀ writes, v2MainMutations false writes = []) := by
  obtain ⟨p, rest, rfl⟩ : ∃ p rest, schedule = p :: rest := by
    cases schedule with
    | nil => exact absurd rfl hne
    | cons p rest => exact ⟨p, rest, rfl⟩
  have hheld := runAttempts_held rest p
  refine ⟨?_, ?_,
    fun a timeout t i fuel hf ht => acquireV2_all_fail a hf fuel timeout t i ht,
    fun w => rfl⟩
  · simp only [runAttempts]
    rw [List.filter_cons_of_pos rfl]
    rw [List.filter_eq_nil_iff.mpr (fun r hr => by rw [hheld.2 r hr]; exact Bool.false_ne_true)]
    rfl
  · intro p2
    simp only [runAttempts, succeededIn, List.any_cons, List.head?]
    rw [List.any_eq_false.mpr (fun r hr => by rw [hheld.2 r hr]; simp)]
    simp only [Bool.and_true, Bool.or_false, beq_iff_eq, Option.some.injEq]

/-- Claim C9, witness: the schedule in which process `a` attempts first
and `b` second — `a` wins, `b` loses; and `b`'s acquire with a 100 ms
timeout and all attempts failing returns `false`. -/
theorem lock_mutual_exclusion_witness :
    ((runAttempts none [Pid.a, Pid.b]).2.filter (fun r => r.2)).length = 1
    ∧ succeededIn (runAttempts none [Pid.a, Pid.b]).2 Pid.a = true
    ∧ succeededIn (runAttempts none [Pid.a, Pid.b]).2 Pid.b = false
    ∧ acquireV2 (fun _ => false) 100 0 0 3 = some false
    ∧ v2MainMutations false ["buffer-write"] = [] := by
  have h := lock_mutual_exclusion [Pid.a, Pid.b] (by simp)
  refine ⟨h.1, (h.2.1 Pid.a).mpr rfl, ?_, ?_, h.2.2.2 ["buffer-write"]⟩
  · cases hb : succeededIn (runAttempts none [Pid.a, Pid.b]).2 Pid.b
    · rfl
    · have := (h.2.1 Pid.b).mp hb
      cases this
  · exact h.2.2.1 (fun _ => false) 100 0 0 2 (fun j => rfl) (by omega)

/-- A falsy value is never a valid usage record (it is not an object, so
it has no truthy `timestamp`). -/
theorem falsy_validRecord (v : Json) (hv : jsTruthy v = false) :
    validRecord v = false := by
  cases v <;> simp_all [jsTruthy, validRecord, jsGet, jsTruthyOpt]

/-- A falsy value is not an array, so the route wraps it in a one-element
list. -/
theorem falsy_toRecords (v : Json) (hv : jsTruthy v = false) :
    toRecords v = [v] := by
  cases v <;> simp_all [jsTruthy, toRecords]

/-- `usernameStr` returns a string exactly for a string-valued
username. -/
theorem usernameStr_eq_some (username : Option Json) (u : String) :
    usernameStr username = some u ↔ username = some (Json.str u) := by
  cases username with
  | none => simp [usernameStr]
  | some ju => cases ju <;> simp [usernameStr]

/-- A `null` record aborts the conversion loop when reached: the whole
request errors. -/
theorem buildDbRecords_with_null (u : String) (l : List Json)
    (h : Json.null ∈ l) : buildDbRecords u l = none := by
  induction l with
  | nil => cases h
  | cons r rest ih =>
    rcases List.mem_cons.mp h with rfl | hm
    · rfl
    · simp only [buildDbRecords]
      cases hc : recordCheck r with
      | none => rfl
      | some b =>
        cases b
        · exact ih hm
        · rw [ih hm]

/-- With no `null` record the conversion loop is the silent-skip
filter-and-convert. -/
theorem buildDbRecords_no_null (u : String) (l : List Json)
    (h : Json.null ∉ l) :
    buildDbRecords u l = some ((l.filter validRecord).map (toDbRecord u)) := by
  induction l with
  | nil => rfl
  | cons r rest ih =>
    have hr : r ≠ Json.null := fun hh => h (hh ▸ List.mem_cons_self r rest)
    have hrest : Json.null ∉ rest := fun hh => h (List.mem_cons_of_mem r hh)
    have hc : recordCheck r = some (validRecord r) := by
      cases r <;> first | (exact absurd rfl hr) | rfl
    cases hv : validRecord r with
    | false =>
      simp only [buildDbRecords, hc, hv, ih hrest]
      rw [List.filter_cons_of_neg (by simp [hv])]
    | true =>
      simp only [buildDbRecords, hc, hv, ih hrest]
      rw [List.filter_cons_of_pos (by simp [hv])]
      rfl

/-- Characterization of a successful validation pass of the submit
route. -/
theorem submitHandler_ok_cases (username usage : Option Json) (recs : List DbRecord)
    (h : submitHandler username usage = SubmitResult.ok recs) :
    ∃ u uv, username = some (Json.str u) ∧ usage = some uv
      ∧ 1 ≤ u.length ∧ u.length ≤ 50
      ∧ toRecords uv ≠ [] ∧ (toRecords uv).length ≤ 1000
      ∧ Json.null ∉ toRecords uv
      ∧ recs = ((toRecords uv).filter validRecord).map (toDbRecord u)
      ∧ recs ≠ [] := by
  simp only [submitHandler] at h
  split at h
  · cases h
  · next hcond =>
    have hcond2 : (jsTruthyOpt username && jsTruthyOpt usage) = true := by
      cases hx : (jsTruthyOpt username && jsTruthyOpt usage)
      · rw [hx] at hcond; simp at hcond
      · rfl
    rw [Bool.and_eq_true] at hcond2
    obtain ⟨hu1, hu2⟩ := hcond2
    cases huser : usernameStr username with
    | none => simp only [huser] at h; cases h
    | some u =>
      simp only [huser] at h
      cases usage with
      | none => simp [jsTruthyOpt] at hu2
      | some uv =>
        split at h
        · cases h
        · next hlen =>
          split at h
          · cases h
          · next hemp =>
            split at h
            · cases h
            · next hmany =>
              cases hdb : buildDbRecords u (toRecords ((some uv).getD Json.null)) with
              | none => simp only [hdb] at h; cases h
              | some db =>
                simp only [hdb] at h
                split at h
                · cases h
                · next hdbe =>
                  obtain rfl : db = recs := by injection h
                  have hnn : Json.null ∉ toRecords uv := by
                    intro hmem
                    rw [buildDbRecords_with_null u _ (by simpa [Option.getD] using hmem)] at hdb
                    cases hdb
                  have hfm : db = ((toRecords uv).filter validRecord).map (toDbRecord u) := by
                    have hsome := buildDbRecords_no_null u (toRecords uv) hnn
                    rw [show toRecords ((some uv).getD Json.null) = toRecords uv from rfl] at hdb
                    rw [hsome] at hdb
                    exact (Option.some.injEq _ _ ▸ hdb).symm
                  simp only [Bool.or_eq_true, decide_eq_true_eq, not_or, not_lt] at hlen
                  refine ⟨u, uv, (usernameStr_eq_some username u).mp huser, rfl,
                    hlen.1, hlen.2, ?_, ?_, hnn, hfm,
                    fun hnil => hdbe (by rw [hnil]; rfl)⟩
                  · intro hnil
                    simp [Option.getD, hnil] at hemp
                  · simp only [not_lt] at hmany
                    exact hmany

/-- A 500 arises exactly from the conversion loop throwing: the earlier
validations passed and the record list contains a `null` record. -/
theorem submitHandler_serverError_cases (username usage : Option Json)
    (h : submitHandler username usage = SubmitResult.serverError) :
    ∃ uv, usage = some uv ∧ Json.null ∈ toRecords uv := by
  simp only [submitHandler] at h
  split at h
  · cases h
  · next hcond =>
    have hcond2 : (jsTruthyOpt username && jsTruthyOpt usage) = true := by
      cases hx : (jsTruthyOpt username && jsTruthyOpt usage)
      · rw [hx] at hcond; simp at hcond
      · rfl
    rw [Bool.and_eq_true] at hcond2
    obtain ⟨hu1, hu2⟩ := hcond2
    cases huser : usernameStr username with
    | none => simp only [huser] at h; cases h
    | some u =>
      simp only [huser] at h
      cases usage with
      | none => simp [jsTruthyOpt] at hu2
      | some uv =>
        split at h
        · cases h
        · split at h
          · cases h
          · split at h
            · cases h
            · cases hdb : buildDbRecords u (toRecords ((some uv).getD Json.null)) with
              | none =>
                refine ⟨uv, rfl, ?_⟩
                by_contra hnn
                rw [buildDbRecords_no_null u _ (by simpa [Option.getD] using hnn)] at hdb
                cases hdb
              | some db =>
                simp only [hdb] at h
                split at h
                · cases h
                · cases h

/-- Claim C10, counterexample: for the request
`\x7b"username":"alice","usage":[null]\x7d` no record passes the per-record
check, yet the route does not reject with 400 — the guard's property
access on `null` throws and the outer catch returns 500; and for
`usage = [valid, null]` nothing is inserted either, where the claim would
insert the valid record. -/
theorem submitHandler_null_record_counterexample :
    claimRejects (some (Json.str "alice")) (some (Json.arr [Json.null]))
    ∧ submitHandler (some (Json.str "alice")) (some (Json.arr [Json.null]))
        = SubmitResult.serverError
    ∧ (∀ e, submitHandler (some (Json.str "alice")) (some (Json.arr [Json.null]))
        ≠ SubmitResult.badRequest e)
    ∧ submitHandler (some (Json.str "alice"))
        (some (Json.arr [c10Rec, Json.null])) = SubmitResult.serverError
    ∧ insertedRows (submitHandler (some (Json.str "alice"))
        (some (Json.arr [c10Rec, Json.null]))) = [] := by
  refine ⟨?_, rfl, ?_, rfl, rfl⟩
  · right; right; right
    intro r hr
    have hr2 : r = Json.null := by simpa [usageRecordsOf, toRecords] using hr
    rw [hr2]
    rfl
  · intro e h
    rw [show submitHandler (some (Json.str "alice")) (some (Json.arr [Json.null]))
        = SubmitResult.serverError from rfl] at h
    cases h

/-- Claim C10 (amended): for every request whose record list contains no
`null` record, the route rejects with 400 and zero insertions exactly
when the username is missing or not a 1-to-50-character string, the
record list is empty, it exceeds 1000 records, or no record passes the
per-record check; rejected and erroring requests insert nothing;
inserted rows come only from records with a truthy timestamp and tokens
field (the rest silently skipped), with absent or `NaN`-coercing token
fields stored as zero.  A `null` record reached by the conversion loop
instead throws a `TypeError`, so the request returns 500 (the outer
catch) with zero insertions. -/
theorem submitHandler_spec (username usage : Option Json) :
    (Json.null ∉ usageRecordsOf usage →
      ((∃ e, submitHandler username usage = SubmitResult.badRequest e) ↔
        claimRejects username usage))
    ∧ (∀ e, submitHandler username usage = SubmitResult.badRequest e →
        insertedRows (submitHandler username usage) = [])
    ∧ (submitHandler username usage = SubmitResult.serverError →
        insertedRows (submitHandler username usage) = [])
    ∧ (∀ u uv, username = some (Json.str u) → 1 ≤ u.length → u.length ≤ 50 →
        usage = some uv → jsTruthy uv = true →
        toRecords uv ≠ [] → (toRecords uv).length ≤ 1000 →
        Json.null ∈ toRecords uv →
        submitHandler username usage = SubmitResult.serverError)
    ∧ (∀ recs, submitHandler username usage = SubmitResult.ok recs →
        ∀ d ∈ recs, ∃ r, r ∈ usageRecordsOf usage ∧ recordCheck r = some true
          ∧ ∃ u, username = some (Json.str u) ∧ d = toDbRecord u r)
    ∧ (∀ u r,
        (jsGet (jsGet (some r) "tokens") "input" = none →
          (toDbRecord u r).input_tokens = 0)
        ∧ (jsGet (jsGet (some r) "tokens") "output" = none →
          (toDbRecord u r).output_tokens = 0)
        ∧ (jsGet (jsGet (some r) "tokens") "cache_creation" = none →
          (toDbRecord u r).cache_creation_tokens = 0)
        ∧ (jsGet (jsGet (some r) "tokens") "cache_read" = none →
          (toDbRecord u r).cache_read_tokens = 0))
    ∧ (∀ v : Json, intPrefixOf (jsToStr v) = none → jsParseIntOrZero (some v) = 0) := by
  refine ⟨fun hnonull => ⟨?_, ?_⟩, ?_, ?_, ?_, ?_, ?_, ?_⟩
  · rintro ⟨e, he⟩
    simp only [submitHandler] at he
    split at he
    · next hcond =>
      rw [Bool.not_eq_true'] at hcond
      rcases Bool.and_eq_false_iff.mp hcond with hu | hu
      · left
        rintro ⟨u, rfl, hl1, hl2⟩
        have hu2 : u = "" := by simpa [jsTruthyOpt, jsTruthy] using hu
        rw [hu2] at hl1
        simp at hl1
      · right; right; right
        intro r hr
        cases usage with
        | none => simp [usageRecordsOf] at hr
        | some v =>
          have hv : jsTruthy v = false := by simpa [jsTruthyOpt] using hu
          rw [show usageRecordsOf (some v) = [v] from by
            simp [usageRecordsOf, falsy_toRecords v hv]] at hr
          rcases List.mem_singleton.mp hr with rfl
          exact falsy_validRecord r hv
    · next hcond =>
      have hcond2 : (jsTruthyOpt username && jsTruthyOpt usage) = true := by
        cases hx : (jsTruthyOpt username && jsTruthyOpt usage)
        · rw [hx] at hcond; simp at hcond
        · rfl
      rw [Bool.and_eq_true] at hcond2
      obtain ⟨hu1, hu2⟩ := hcond2
      cases huser : usernameStr username with
      | none =>
        left
        rintro ⟨u, huEq, hl1, hl2⟩
        rw [huEq] at huser
        simp [usernameStr] at huser
      | some u =>
        simp only [huser] at he
        have huEqU : username = some (Json.str u) := (usernameStr_eq_some username u).mp huser
        cases usage with
        | none => simp [jsTruthyOpt] at hu2
        | some uv =>
          split at he
          · next hlen =>
            left
            rintro ⟨u2, huEq2, hl1, hl2⟩
            rw [huEqU] at huEq2
            injection huEq2 with h3
            injection h3 with h4
            subst h4
            simp only [Bool.or_eq_true, decide_eq_true_eq] at hlen
            omega
          · next hlen =>
            split at he
            · next hemp =>
              right; left
              simp only [Option.getD] at hemp
              simp only [usageRecordsOf]
              exact List.length_eq_zero.mp hemp
            · next hemp =>
              split at he
              · next hmany =>
                right; right; left
                simpa [usageRecordsOf] using hmany
              · next hmany =>
                cases hdb : buildDbRecords u (toRecords ((some uv).getD Json.null)) with
                | none => simp only [hdb] at he; cases he
                | some db =>
                  simp only [hdb] at he
                  split at he
                  · next hdbe =>
                    right; right; right
                    intro r hr
                    have hnn : Json.null ∉ toRecords uv := by
                      intro hmem
                      rw [buildDbRecords_with_null u _
                        (by simpa [Option.getD] using hmem)] at hdb
                      cases hdb
                    have hfm : db = ((toRecords uv).filter validRecord).map (toDbRecord u) := by
                      have hsome := buildDbRecords_no_null u (toRecords uv) hnn
                      rw [show toRecords ((some uv).getD Json.null) = toRecords uv from rfl]
                        at hdb
                      rw [hsome] at hdb
                      exact (Option.some.injEq _ _ ▸ hdb).symm
                    have hfil : (toRecords uv).filter validRecord = [] := by
                      apply List.length_eq_zero.mp
                      have hlen0 := hdbe
                      rw [hfm] at hlen0
                      rw [List.length_map] at hlen0
                      exact hlen0
                    have hnr := List.filter_eq_nil_iff.mp hfil r
                      (by simpa [usageRecordsOf] using hr)
                    exact Bool.eq_false_iff.mpr hnr
                  · cases he
  · intro hcr
    cases hres : submitHandler username usage with
    | badRequest e => exact ⟨e, rfl⟩
    | serverError =>
      exfalso
      obtain ⟨uv, rfl, hnull⟩ := submitHandler_serverError_cases username usage hres
      exact hnonull (by simpa [usageRecordsOf] using hnull)
    | ok recs =>
      exfalso
      obtain ⟨u, uv, huEq, rfl, hl1, hl2, hne, hle, hnn, hrecs, hrne⟩ :=
        submitHandler_ok_cases username usage recs hres
      rcases hcr with h | h | h | h
      · exact h ⟨u, huEq, hl1, hl2⟩
      · exact hne (by simpa [usageRecordsOf] using h)
      · have : 1000 < (toRecords uv).length := by simpa [usageRecordsOf] using h
        omega
      · apply hrne
        rw [hrecs]
        rw [List.filter_eq_nil_iff.mpr (fun a ha => by
          rw [h a (by simpa [usageRecordsOf] using ha)]
          simp)]
        rfl
  · intro e he
    rw [he]
    rfl
  · intro he
    rw [he]
    rfl
  · intro u uv huEq hl1 hl2 hvEq htruthy hne hle hnull
    subst huEq
    subst hvEq
    have hustr : u ≠ "" := by
      intro hh
      rw [hh] at hl1
      simp at hl1
    have hcond : (jsTruthyOpt (some (Json.str u)) && jsTruthyOpt (some uv)) = true := by
      have ht1 : jsTruthyOpt (some (Json.str u)) = true := by
        simp only [jsTruthyOpt, jsTruthy, bne_iff_ne, ne_eq]
        simpa using hustr
      have ht2 : jsTruthyOpt (some uv) = true := by
        simpa [jsTruthyOpt] using htruthy
      rw [ht1, ht2]
      rfl
    simp only [submitHandler, hcond, Bool.not_true]
    rw [if_neg (by simp)]
    simp only [usernameStr]
    rw [if_neg (by
      simp only [Bool.or_eq_true, decide_eq_true_eq, not_or, not_lt]
      omega)]
    rw [if_neg (by
      simp only [Option.getD]
      intro hh
      exact hne (List.length_eq_zero.mp hh))]
    rw [if_neg (by
      simp only [Option.getD, not_lt]
      exact hle)]
    rw [buildDbRecords_with_null u _ (by simpa [Option.getD] using hnull)]
  · intro recs hres d hd
    obtain ⟨u, uv, huEq, rfl, hl1, hl2, hne, hle, hnn, hrecs, hrne⟩ :=
      submitHandler_ok_cases username usage recs hres
    rw [hrecs] at hd
    obtain ⟨r, hrf, hfd⟩ := List.mem_map.mp hd
    rw [List.mem_filter] at hrf
    have hrnotnull : r ≠ Json.null := fun hh => hnn (hh ▸ hrf.1)
    have hrc : recordCheck r = some true := by
      have : recordCheck r = some (validRecord r) := by
        cases r <;> first | (exact absurd rfl hrnotnull) | rfl
      rw [this, hrf.2]
    exact ⟨r, by simpa [usageRecordsOf] using hrf.1, hrc, u, huEq, hfd.symm⟩
  · intro u r
    refine ⟨?_, ?_, ?_, ?_⟩ <;> intro hnone <;>
      simp [toDbRecord, hnone, jsParseIntOrZero]
  · intro v hn
    simp [jsParseIntOrZero, hn]

/-- Claim C10, witness: an empty usage array is rejected with 400; a
record list holding a `null` record after a non-record value yields a
500; a record whose tokens object lacks `input` is stored with zero
input tokens; a non-numeric (object-valued) token field coerces to
zero. -/
theorem submitHandler_spec_witness :
    (∃ e, submitHandler (some (Json.str "alice")) (some (Json.arr []))
        = SubmitResult.badRequest e)
    ∧ submitHandler (some (Json.str "alice")) (some (Json.arr [Json.num 1, Json.null]))
        = SubmitResult.serverError
    ∧ (toDbRecord "alice" c10Rec).input_tokens = 0
    ∧ jsParseIntOrZero (some (Json.obj [])) = 0 := by
  refine ⟨((submitHandler_spec (some (Json.str "alice")) (some (Json.arr []))).1
      (by simp [usageRecordsOf, toRecords])).mpr (Or.inr (Or.inl rfl)),
    (submitHandler_spec (some (Json.str "alice"))
        (some (Json.arr [Json.num 1, Json.null]))).2.2.2.1 "alice"
      (Json.arr [Json.num 1, Json.null]) rfl (by decide) (by decide) rfl rfl
      (fun hh => List.noConfusion hh) (by decide) (by simp [toRecords]),
    ((submitHandler_spec (some (Json.str "alice")) (some (Json.arr []))).2.2.2.2.2.1
      "alice" c10Rec).1 rfl,
    (submitHandler_spec (some (Json.str "alice")) (some (Json.arr []))).2.2.2.2.2.2
      (Json.obj []) rfl⟩

end ClaudeStats
